import Mathlib

/-!
Verification of the d3-gup library (src/src/gup.js and src/src/compose.js)
against its natural-language specification.

The embedding models:
* the five phase slots of a GUP factory (`Cfg`), where `Phase.unset`
  represents the internal `null`, `Phase.emptyFn` / `Phase.identityFn`
  are the canonical module-level sentinel functions `empty` / `identity`
  (compared by reference identity in the source, by constructor here),
  `Phase.user n` is a user-supplied function identified by `n`, and
  `Phase.comp srcs name` is a dispatcher produced by `comp` in
  compose.js, closing over a list of source-factory identifiers;
* the container values that flow through `_gup` (`Val`), a free term
  algebra over the selection/transition capability interface of spec §6
  (the container itself is external to the repository, so its operations
  are modelled from the spec: `data` produces a joined view exposing
  `enter`/`exit`/`merge`, a transition-like value is recognised purely
  by the presence of a `selection` accessor, and `undefined` has no
  properties, so reading a property of it is a TypeError);
* the body of `_gup` as a sequence of steps in `Except String`,
  one step per statement block of the source, threading a state record
  `St` that contains both the closure configuration and the local
  variables of `_gup`;
* the `comp`/`compose` machinery of compose.js, including the
  property-extend loop over enumerable source properties.
-/

namespace DGup

/-- Names of the five phases of a GUP factory. -/
inductive PhaseName where
  | select
  | pre
  | exit
  | enter
  | post
deriving DecidableEq, Repr

/-- A stored phase slot.  `unset` is the internal `null`; `emptyFn` and
`identityFn` are the module-level sentinel functions `empty` and
`identity` of gup.js (identified by reference in the source, by
constructor here); `user n` is a user function with identity `n`;
`comp srcs name` is the dispatcher closure built by `comp` in
compose.js over the source factories `srcs`. -/
inductive Phase where
  | unset
  | emptyFn
  | identityFn
  | user (n : Nat)
  | comp (srcs : List Nat) (name : PhaseName)
deriving DecidableEq, Repr

/-- The five closure variables `select`, `pre`, `exit`, `enter`, `post`
of a GUP factory, all initialised to `null` (gup.js lines 38-44). -/
structure Cfg where
  select : Phase := .unset
  pre : Phase := .unset
  exit : Phase := .unset
  enter : Phase := .unset
  post : Phase := .unset
deriving DecidableEq, Repr

/-- Read the stored slot for a phase name. -/
def Cfg.getPh (c : Cfg) : PhaseName → Phase
  | .select => c.select
  | .pre => c.pre
  | .exit => c.exit
  | .enter => c.enter
  | .post => c.post

/-- Replace the stored slot for a phase name. -/
def Cfg.setPh (c : Cfg) : PhaseName → Phase → Cfg
  | .select, p => { c with select := p }
  | .pre, p => { c with pre := p }
  | .exit, p => { c with exit := p }
  | .enter, p => { c with enter := p }
  | .post, p => { c with post := p }

/-- The default sentinel for each phase: `identity` for `select` and
`enter`, `empty` for `pre`, `exit` and `post`. -/
def defaultOf : PhaseName → Phase
  | .select => .identityFn
  | .enter => .identityFn
  | _ => .emptyFn

/-- JavaScript `p || d` on a stored phase: `null` (unset) is the only
falsy stored value, every function is truthy. -/
def phaseOr (p d : Phase) : Phase :=
  if p = .unset then d else p

/-- The public getter for a phase, `stored || default`
(gup.js lines 182-216). -/
def Cfg.getter (c : Cfg) (n : PhaseName) : Phase :=
  phaseOr (c.getPh n) (defaultOf n)

/-- The skip test of `comp` (compose.js line 29): a fetched phase
function is skipped iff it is (reference-)identical to either
module sentinel, `empty` or `identity`. -/
def isSentinel : Phase → Bool
  | .emptyFn => true
  | .identityFn => true
  | _ => false

/-- compose.js line 20: only `enter` and `select` dispatchers forward
their return value. -/
def forwardName : PhaseName → Bool
  | .enter => true
  | .select => true
  | _ => false

namespace Gup

/-- The `gup.select` accessor (gup.js lines 182-184).  `none` means the
call had zero arguments (getter); `some f` sets the slot (`f` may be
`Phase.unset`, i.e. the caller passed `null`).  A setter call returns
the factory itself (left), a getter call returns a phase function
(right). -/
def select (c : Cfg) (arg : Option Phase) : Cfg ⊕ Phase :=
  match arg with
  | some f => .inl { c with select := f }
  | none => .inr (phaseOr c.select .identityFn)

/-- The `gup.pre` accessor (gup.js lines 190-192). -/
def pre (c : Cfg) (arg : Option Phase) : Cfg ⊕ Phase :=
  match arg with
  | some f => .inl { c with pre := f }
  | none => .inr (phaseOr c.pre .emptyFn)

/-- The `gup.exit` accessor (gup.js lines 198-200). -/
def exit (c : Cfg) (arg : Option Phase) : Cfg ⊕ Phase :=
  match arg with
  | some f => .inl { c with exit := f }
  | none => .inr (phaseOr c.exit .emptyFn)

/-- The `gup.enter` accessor (gup.js lines 206-208). -/
def enter (c : Cfg) (arg : Option Phase) : Cfg ⊕ Phase :=
  match arg with
  | some f => .inl { c with enter := f }
  | none => .inr (phaseOr c.enter .identityFn)

/-- The `gup.post` accessor (gup.js lines 214-216). -/
def post (c : Cfg) (arg : Option Phase) : Cfg ⊕ Phase :=
  match arg with
  | some f => .inl { c with post := f }
  | none => .inr (phaseOr c.post .emptyFn)

/-- The `gup.update` bulk accessor (gup.js lines 222-243): a switch on
`arguments.length` followed by positional array destructuring; the
default switch arm covers every length of four or more. -/
def update (c : Cfg) (args : List Phase) : Cfg ⊕ List Phase :=
  match args.length with
  | 0 => .inr [phaseOr c.pre .emptyFn, phaseOr c.exit .emptyFn,
      phaseOr c.enter .identityFn, phaseOr c.post .emptyFn]
  | 1 => .inl { c with pre := args.getD 0 .unset }
  | 2 => .inl { c with pre := args.getD 0 .unset, exit := args.getD 1 .unset }
  | 3 => .inl { c with pre := args.getD 0 .unset, exit := args.getD 1 .unset, enter := args.getD 2 .unset }
  | _ => .inl { c with pre := args.getD 0 .unset, exit := args.getD 1 .unset, enter := args.getD 2 .unset, post := args.getD 3 .unset }

end Gup

/-- Container values flowing through `_gup`: a free term algebra over
the capability interface of spec §6.  The container is external to the
repository, so this part is modelled from the spec: `atomSel id b` is a
plain selection-like value (`b` records whether it exposes a
`transition` method), `dataJoin s d k` is the joined view
`s.data(d, k)`, `enterOf`/`exitOf`/`merge` are its sub-views,
`atomTrans id u` is an external transition-like value whose
`selection()` is `u`, `transitionOf s ctx` is `s.transition(ctx)`, and
`undef` is JavaScript `undefined`. -/
inductive Val where
  | undef
  | atomSel (id : Nat) (hasTrans : Bool)
  | dataJoin (s : Val) (d : List Nat) (k : Option Nat)
  | enterOf (s : Val)
  | exitOf (s : Val)
  | merge (a b : Val)
  | atomTrans (id : Nat) (u : Val)
  | transitionOf (s ctx : Val)
deriving DecidableEq, Repr

/-- A value is transition-like iff it exposes a `selection` accessor
(spec §6: the protocol detects transitions purely by that shape). -/
def Val.isTransitionLike : Val → Bool
  | .atomTrans _ _ => true
  | .transitionOf _ _ => true
  | _ => false

/-- A value on which the selection-like methods (`data`, `enter`,
`exit`, `merge`, `call`) are available. -/
def Val.isSelLike : Val → Bool
  | Val.undef => false
  | .atomTrans _ _ => false
  | .transitionOf _ _ => false
  | _ => true

/-- Truthiness of `v.selection`: reading any property of `undefined`
throws a TypeError; otherwise the accessor is present exactly on
transition-like values. -/
def Val.hasSelectionAttr : Val → Except String Bool
  | Val.undef => .error "TypeError: undefined has no properties"
  | v => .ok v.isTransitionLike

/-- Calling `v.selection()`. -/
def Val.selectionM : Val → Except String Val
  | .atomTrans _ u => .ok u
  | .transitionOf s _ => .ok s
  | _ => .error "TypeError: selection is not a function"

/-- Truthiness of `v.transition` for the non-undefined values the
protocol tests: a plain selection carries its atom's capability flag,
derived views inherit it from the view they were derived from, and
transition-like values always expose `transition`. -/
def Val.hasTransAttrB : Val → Bool
  | Val.undef => false
  | .atomSel _ b => b
  | .dataJoin s _ _ => s.hasTransAttrB
  | .enterOf s => s.hasTransAttrB
  | .exitOf s => s.hasTransAttrB
  | .merge a _ => a.hasTransAttrB
  | .atomTrans _ _ => true
  | .transitionOf _ _ => true

/-- Calling `v.data(d, k)` (the external data-join primitive). -/
def Val.dataM (v : Val) (d : List Nat) (k : Option Nat) : Except String Val :=
  if v.isSelLike then .ok (.dataJoin v d k) else .error "TypeError: data is not a function"

/-- Calling `v.enter()`. -/
def Val.enterM (v : Val) : Except String Val :=
  if v.isSelLike then .ok (.enterOf v) else .error "TypeError: enter is not a function"

/-- Calling `v.exit()`. -/
def Val.exitM (v : Val) : Except String Val :=
  if v.isSelLike then .ok (.exitOf v) else .error "TypeError: exit is not a function"

/-- Calling `v.merge(w)`, with `v` as receiver. -/
def Val.mergeM (v w : Val) : Except String Val :=
  if v.isSelLike then .ok (.merge v w) else .error "TypeError: merge is not a function"

/-- A wellformedness condition on the container argument: the
underlying selection of a transition-like value is not itself
transition-like (spec §6: `selection()` returns a Selection-like). -/
def Val.underlyingOK : Val → Prop
  | .atomTrans _ u => u.isTransitionLike = false
  | .transitionOf s _ => s.isTransitionLike = false
  | _ => True

/-- The loop body of `comp` (compose.js lines 26-39), parametric in the
evaluator `step` used to apply a fetched source phase function.  It
iterates the source-factory ids, fetches each source's current phase
function through its getter (so defaults apply), skips it when it is
one of the two module sentinels, and otherwise applies it; for
forwarding phases the returned value replaces the first argument.  The
second component records, in order, each executed source together with
the argument list it received. -/
def compLoopF (step : Phase → List Val → Val) (W : Nat → Cfg) :
    List Nat → PhaseName → List Val → Val → Val × List (Nat × List Val)
  | [], _, _, result => (result, [])
  | i :: rest, name, args, result =>
    let g := Cfg.getter (W i) name
    if isSentinel g then compLoopF step W rest name args result
    else
      let r := step g args
      let next := compLoopF step W rest name
        (if forwardName name then r :: args.tail else args) r
      (next.1, (i, args) :: next.2)

/-- Apply a phase function to an argument list.  `env` gives the
semantics of user functions (by identity), `W` is the current state of
every source factory (the dispatcher built by `comp` reads each
source's phase through its getter at invocation time), and `fuel`
bounds the nesting depth of composites inside composites. -/
def applyPhase (env : Nat → List Val → Val) (W : Nat → Cfg) :
    Nat → Phase → List Val → Val
  | _, .unset, _ => Val.undef
  | _, .emptyFn, _ => Val.undef
  | _, .identityFn, args => args.headD Val.undef
  | _, .user n, args => env n args
  | 0, .comp _ _, _ => Val.undef
  | fuel + 1, .comp srcs name, args =>
    let out := compLoopF (fun p a => applyPhase env W fuel p a) W srcs name args Val.undef
    if forwardName name then out.1 else Val.undef

/-- The full behaviour of the dispatcher `f` returned by
`comp(gups, name)` (compose.js lines 18-41): run the loop with `result`
initially undefined, return `result` only for forwarding phases, and
report the executed sources with their argument lists. -/
def compRun (env : Nat → List Val → Val) (W : Nat → Cfg) (fuel : Nat)
    (gups : List Nat) (name : PhaseName) (args : List Val) :
    Val × List (Nat × List Val) :=
  let o := compLoopF (fun p a => applyPhase env W fuel p a) W gups name args Val.undef
  (if forwardName name then o.1 else Val.undef, o.2)

/-- Modelled from the spec (claim C2's wording): for `select` and
`enter`, each executed source's return value becomes the first argument
passed to the next executed source, and the last such return value is
the dispatcher's own return value (`none` when no source executes). -/
def chainSpec (step : Phase → List Val → Val) (W : Nat → Cfg)
    (name : PhaseName) : List Nat → List Val → Option Val
  | [], _ => none
  | i :: rest, args =>
    let g := Cfg.getter (W i) name
    if isSentinel g then chainSpec step W name rest args
    else
      let r := step g args
      some ((chainSpec step W name rest (r :: args.tail)).getD r)

/-- The phase-compose half of `compose` (compose.js lines 53-54 and
66-75): a fresh factory whose five slots hold `comp` dispatchers over
the reversed source list. -/
def compose (srcs : List Nat) : Cfg :=
  { select := .comp srcs.reverse .select
  , pre := .comp srcs.reverse .pre
  , exit := .comp srcs.reverse .exit
  , enter := .comp srcs.reverse .enter
  , post := .comp srcs.reverse .post }

/-- The state threaded through the body of `_gup` (gup.js lines
56-166): the closure configuration (`cfg`, `data`, `more`) together
with the local variables of `_gup` (`context`, `shouldTransition`,
`selection`, and the phase locals), plus a log `calls` of every phase
function invocation with the view value it received as first
argument. -/
structure St where
  context : Val
  shouldTransition : Bool
  selection : Val
  args : List Val
  calls : List (PhaseName × Val)
  joined : Val
  enterArg : Val
  enterView : Val
  merged : Val
  result : Val
  cfg : Cfg
  data : List Nat
  more : List Nat
deriving DecidableEq, Repr

/-- Entry of `_gup` (gup.js lines 65-86): shift the context off the
argument list, detect a transition context by the presence of a
`selection` accessor, and derive the underlying selection. -/
def stepInit (cfg : Cfg) (data : List Nat) (more : List Nat)
    (callArgs : List Val) : Except String St :=
  match (callArgs.headD Val.undef).hasSelectionAttr with
  | .error e => .error e
  | .ok shouldTransition =>
    match (if shouldTransition then (callArgs.headD Val.undef).selectionM else .ok (callArgs.headD Val.undef)) with
    | .error e => .error e
    | .ok selection =>
      .ok { context := callArgs.headD Val.undef, shouldTransition := shouldTransition, selection := selection, args := callArgs.tail, calls := [], joined := Val.undef, enterArg := Val.undef, enterView := Val.undef, merged := Val.undef, result := Val.undef, cfg := cfg, data := data, more := more }

/-- Phase 0 of `_gup` (gup.js lines 88-97): if a truthy, non-`identity`
`select` is configured, it transforms the selection; if its result is
transition-like it is promoted to the active transition context. -/
def stepSelect (env : Nat → List Val → Val) (W : Nat → Cfg) (fuel : Nat)
    (s : St) : Except String St :=
  if s.cfg.select ≠ .unset ∧ s.cfg.select ≠ .identityFn then
    let r := applyPhase env W fuel s.cfg.select (s.selection :: s.args)
    let logged := s.calls ++ [(PhaseName.select, s.selection)]
    match r.hasSelectionAttr with
    | .error e => .error e
    | .ok true =>
      match r.selectionM with
      | .error e => .error e
      | .ok r' => .ok { s with context := r, shouldTransition := true, selection := r', calls := logged }
    | .ok false => .ok { s with selection := r, calls := logged }
  else .ok s

/-- The data-join of `_gup` (gup.js line 102):
`selection = selection.data(data, more[0])`. -/
def stepJoin (s : St) : Except String St :=
  match s.selection.dataM s.data s.more.head? with
  | .error e => .error e
  | .ok j => .ok { s with selection := j, joined := j }

/-- Phase 1 of `_gup` (gup.js lines 104-114): if a truthy, non-`empty`
`pre` is configured, call it on the persisting view, wrapped in the
transition context when one is active and the view exposes
`transition`; the return value is discarded. -/
def stepPre (env : Nat → List Val → Val) (W : Nat → Cfg) (fuel : Nat)
    (s : St) : Except String St :=
  if s.cfg.pre ≠ .unset ∧ s.cfg.pre ≠ .emptyFn then
    let v := if s.shouldTransition ∧ s.selection.hasTransAttrB then Val.transitionOf s.selection s.context else s.selection
    let _ := applyPhase env W fuel s.cfg.pre (v :: s.args)
    .ok { s with calls := s.calls ++ [(PhaseName.pre, v)] }
  else .ok s

/-- Phase 2 of `_gup` (gup.js lines 116-127): like phase 1 but on the
exit view `selection.exit()`. -/
def stepExit (env : Nat → List Val → Val) (W : Nat → Cfg) (fuel : Nat)
    (s : St) : Except String St :=
  if s.cfg.exit ≠ .unset ∧ s.cfg.exit ≠ .emptyFn then
    match s.selection.exitM with
    | .error e => .error e
    | .ok x =>
      let v := if s.shouldTransition ∧ x.hasTransAttrB then Val.transitionOf x s.context else x
      let _ := applyPhase env W fuel s.cfg.exit (v :: s.args)
      .ok { s with calls := s.calls ++ [(PhaseName.exit, v)] }
  else .ok s

/-- Phase 3 of `_gup` (gup.js lines 129-147): `selection.enter()` is
taken unconditionally; a truthy, non-`identity` `enter` function is
called on that raw entering view (no transition is applied) and its
return value replaces the entering view, with promotion to transition
context if the result is transition-like. -/
def stepEnter (env : Nat → List Val → Val) (W : Nat → Cfg) (fuel : Nat)
    (s : St) : Except String St :=
  match s.selection.enterM with
  | .error e => .error e
  | .ok e0 =>
    if s.cfg.enter ≠ .unset ∧ s.cfg.enter ≠ .identityFn then
      let r := applyPhase env W fuel s.cfg.enter (e0 :: s.args)
      let logged := s.calls ++ [(PhaseName.enter, e0)]
      match r.hasSelectionAttr with
      | .error e => .error e
      | .ok true =>
        match r.selectionM with
        | .error e => .error e
        | .ok r' => .ok { s with context := r, shouldTransition := true, enterArg := e0, enterView := r', calls := logged }
      | .ok false => .ok { s with enterArg := e0, enterView := r, calls := logged }
    else .ok { s with enterArg := e0, enterView := e0 }

/-- Phase 4 and result of `_gup` (gup.js lines 149-165):
`$post = $enter.merge(selection)`, wrapped in the transition context
when one is active and the merged view exposes `transition` (this
happens before, and independently of, the `post` test); a truthy,
non-`empty` `post` is then called on it, and `$post` is returned. -/
def stepMerge (env : Nat → List Val → Val) (W : Nat → Cfg) (fuel : Nat)
    (s : St) : Except String St :=
  match s.enterView.mergeM s.selection with
  | .error e => .error e
  | .ok m =>
    let p := if s.shouldTransition ∧ m.hasTransAttrB then Val.transitionOf m s.context else m
    if s.cfg.post ≠ .unset ∧ s.cfg.post ≠ .emptyFn then
      let _ := applyPhase env W fuel s.cfg.post (p :: s.args)
      .ok { s with merged := m, result := p, calls := s.calls ++ [(PhaseName.post, p)] }
    else .ok { s with merged := m, result := p }

/-- The whole body of `_gup`: the five phases around the data-join, in
source order. -/
def run (env : Nat → List Val → Val) (W : Nat → Cfg) (fuel : Nat)
    (cfg : Cfg) (data : List Nat) (more : List Nat) (callArgs : List Val) :
    Except String St :=
  match stepInit cfg data more callArgs with
  | .error e => .error e
  | .ok s0 =>
  match stepSelect env W fuel s0 with
  | .error e => .error e
  | .ok s1 =>
  match stepJoin s1 with
  | .error e => .error e
  | .ok s2 =>
  match stepPre env W fuel s2 with
  | .error e => .error e
  | .ok s3 =>
  match stepExit env W fuel s3 with
  | .error e => .error e
  | .ok s4 =>
  match stepEnter env W fuel s4 with
  | .error e => .error e
  | .ok s5 => stepMerge env W fuel s5

/-- Rebind the `post` slot of the configuration carried by a state. -/
def repost (q : Phase) (t : St) : St :=
  { t with cfg := { t.cfg with post := q } }

lemma dataM_ok {v : Val} {d : List Nat} {k : Option Nat} {x : Val}
    (h : Val.dataM v d k = .ok x) : x = .dataJoin v d k := by
  unfold Val.dataM at h
  split at h
  · injection h with h2; exact h2.symm
  · exact Except.noConfusion h

lemma enterM_ok {v x : Val} (h : Val.enterM v = .ok x) : x = .enterOf v := by
  unfold Val.enterM at h
  split at h
  · injection h with h2; exact h2.symm
  · exact Except.noConfusion h

lemma exitM_ok {v x : Val} (h : Val.exitM v = .ok x) : x = .exitOf v := by
  unfold Val.exitM at h
  split at h
  · injection h with h2; exact h2.symm
  · exact Except.noConfusion h

lemma mergeM_ok {v w x : Val} (h : Val.mergeM v w = .ok x) : x = .merge v w := by
  unfold Val.mergeM at h
  split at h
  · injection h with h2; exact h2.symm
  · exact Except.noConfusion h

lemma run_ok {env : Nat → List Val → Val} {W : Nat → Cfg} {fuel : Nat}
    {cfg : Cfg} {data more : List Nat} {callArgs : List Val} {out : St}
    (h : run env W fuel cfg data more callArgs = .ok out) :
    ∃ s0 s1 s2 s3 s4 s5,
      stepInit cfg data more callArgs = .ok s0 ∧
      stepSelect env W fuel s0 = .ok s1 ∧
      stepJoin s1 = .ok s2 ∧
      stepPre env W fuel s2 = .ok s3 ∧
      stepExit env W fuel s3 = .ok s4 ∧
      stepEnter env W fuel s4 = .ok s5 ∧
      stepMerge env W fuel s5 = .ok out := by
  unfold run at h
  split at h
  · exact Except.noConfusion h
  next s0 h0 =>
    split at h
    · exact Except.noConfusion h
    next s1 h1 =>
      split at h
      · exact Except.noConfusion h
      next s2 h2 =>
        split at h
        · exact Except.noConfusion h
        next s3 h3 =>
          split at h
          · exact Except.noConfusion h
          next s4 h4 =>
            split at h
            · exact Except.noConfusion h
            next s5 h5 =>
              exact ⟨s0, s1, s2, s3, s4, s5, h0, h1, h2, h3, h4, h5, h⟩

lemma stepInit_ok {cfg : Cfg} {data more : List Nat} {callArgs : List Val}
    {s : St} (h : stepInit cfg data more callArgs = .ok s) :
    s.cfg = cfg ∧ s.data = data ∧ s.more = more ∧ s.args = callArgs.tail ∧
    s.calls = [] ∧ s.joined = Val.undef := by
  unfold stepInit at h
  split at h
  · exact Except.noConfusion h
  next b hb =>
    split at h
    · exact Except.noConfusion h
    next sel hsel =>
      injection h with h2
      subst h2
      exact ⟨rfl, rfl, rfl, rfl, rfl, rfl⟩

lemma stepInit_sel {cfg : Cfg} {data more : List Nat} {callArgs : List Val}
    {s : St} (hwf : Val.underlyingOK (callArgs.headD Val.undef))
    (h : stepInit cfg data more callArgs = .ok s) :
    s.selection.isTransitionLike = false := by
  unfold stepInit at h
  revert hwf
  generalize (callArgs.headD Val.undef) = c at h
  intro hwf
  cases c with
  | undef => simp [Val.hasSelectionAttr] at h
  | atomSel i b =>
    simp only [Val.hasSelectionAttr, Val.isTransitionLike] at h
    injection h with h2; subst h2; rfl
  | dataJoin v d k =>
    simp only [Val.hasSelectionAttr, Val.isTransitionLike] at h
    injection h with h2; subst h2; rfl
  | enterOf v =>
    simp only [Val.hasSelectionAttr, Val.isTransitionLike] at h
    injection h with h2; subst h2; rfl
  | exitOf v =>
    simp only [Val.hasSelectionAttr, Val.isTransitionLike] at h
    injection h with h2; subst h2; rfl
  | merge a b =>
    simp only [Val.hasSelectionAttr, Val.isTransitionLike] at h
    injection h with h2; subst h2; rfl
  | atomTrans i u =>
    simp only [Val.hasSelectionAttr, Val.isTransitionLike, Val.selectionM] at h
    injection h with h2; subst h2; exact hwf
  | transitionOf v ctx =>
    simp only [Val.hasSelectionAttr, Val.isTransitionLike, Val.selectionM] at h
    injection h with h2; subst h2; exact hwf

lemma stepSelect_ok {env : Nat → List Val → Val} {W : Nat → Cfg} {fuel : Nat}
    {s t : St} (h : stepSelect env W fuel s = .ok t) :
    t.cfg = s.cfg ∧ t.data = s.data ∧ t.more = s.more ∧ t.args = s.args ∧
    t.joined = s.joined ∧
    ∃ cs, t.calls = s.calls ++ cs ∧
      ∀ e ∈ cs, e.1 = PhaseName.select ∧ e.2 = s.selection := by
  unfold stepSelect at h
  dsimp only at h
  split at h
  · split at h
    · exact Except.noConfusion h
    · split at h
      · exact Except.noConfusion h
      · injection h with h2
        subst h2
        refine ⟨rfl, rfl, rfl, rfl, rfl, [(PhaseName.select, s.selection)], rfl, ?_⟩
        intro e he
        simp only [List.mem_singleton] at he
        subst he
        exact ⟨rfl, rfl⟩
    · injection h with h2
      subst h2
      refine ⟨rfl, rfl, rfl, rfl, rfl, [(PhaseName.select, s.selection)], rfl, ?_⟩
      intro e he
      simp only [List.mem_singleton] at he
      subst he
      exact ⟨rfl, rfl⟩
  · injection h with h2
    subst h2
    exact ⟨rfl, rfl, rfl, rfl, rfl, [], (List.append_nil _).symm, by simp⟩

lemma stepJoin_ok {s t : St} (h : stepJoin s = .ok t) :
    t = { s with selection := Val.dataJoin s.selection s.data s.more.head?,
                 joined := Val.dataJoin s.selection s.data s.more.head? } := by
  unfold stepJoin at h
  split at h
  · exact Except.noConfusion h
  next j hj =>
    injection h with h2
    subst h2
    rw [dataM_ok hj]

lemma stepPre_ok {env : Nat → List Val → Val} {W : Nat → Cfg} {fuel : Nat}
    {s t : St} (h : stepPre env W fuel s = .ok t) :
    ∃ cs, t = { s with calls := s.calls ++ cs } ∧
      ∀ e ∈ cs, e.1 = PhaseName.pre := by
  unfold stepPre at h
  dsimp only at h
  split at h
  · injection h with h2
    subst h2
    exact ⟨_, rfl, by simp⟩
  · injection h with h2
    subst h2
    exact ⟨[], by simp, by simp⟩

lemma stepExit_ok {env : Nat → List Val → Val} {W : Nat → Cfg} {fuel : Nat}
    {s t : St} (h : stepExit env W fuel s = .ok t) :
    ∃ cs, t = { s with calls := s.calls ++ cs } ∧
      ∀ e ∈ cs, e.1 = PhaseName.exit := by
  unfold stepExit at h
  dsimp only at h
  split at h
  · split at h
    · exact Except.noConfusion h
    next x hx =>
      injection h with h2
      subst h2
      exact ⟨_, rfl, by simp⟩
  · injection h with h2
    subst h2
    exact ⟨[], by simp, by simp⟩

lemma stepEnter_ok {env : Nat → List Val → Val} {W : Nat → Cfg} {fuel : Nat}
    {s t : St} (h : stepEnter env W fuel s = .ok t) :
    t.cfg = s.cfg ∧ t.data = s.data ∧ t.more = s.more ∧ t.args = s.args ∧
    t.selection = s.selection ∧ t.joined = s.joined ∧
    (∃ cs, t.calls = s.calls ++ cs ∧
      (∀ e ∈ cs, e.1 = PhaseName.enter ∧ e.2 = Val.enterOf s.selection) ∧
      ((s.cfg.enter ≠ Phase.unset ∧ s.cfg.enter ≠ Phase.identityFn) →
        cs = [(PhaseName.enter, Val.enterOf s.selection)])) ∧
    ((s.cfg.enter = Phase.unset ∨ s.cfg.enter = Phase.identityFn) →
      t.enterView = Val.enterOf s.selection) := by
  unfold stepEnter at h
  dsimp only at h
  split at h
  · exact Except.noConfusion h
  next e0 he0 =>
    have he0' : e0 = Val.enterOf s.selection := enterM_ok he0
    subst he0'
    split at h
    next hact =>
      split at h
      · exact Except.noConfusion h
      · split at h
        · exact Except.noConfusion h
        · injection h with h2
          subst h2
          refine ⟨rfl, rfl, rfl, rfl, rfl, rfl, ⟨_, rfl, ?_, fun _ => rfl⟩, ?_⟩
          · intro e he
            simp only [List.mem_singleton] at he
            subst he
            exact ⟨rfl, rfl⟩
          · intro hdef
            rcases hdef with hdef | hdef
            · exact absurd hdef hact.1
            · exact absurd hdef hact.2
      · injection h with h2
        subst h2
        refine ⟨rfl, rfl, rfl, rfl, rfl, rfl, ⟨_, rfl, ?_, fun _ => rfl⟩, ?_⟩
        · intro e he
          simp only [List.mem_singleton] at he
          subst he
          exact ⟨rfl, rfl⟩
        · intro hdef
          rcases hdef with hdef | hdef
          · exact absurd hdef hact.1
          · exact absurd hdef hact.2
    next hact =>
      injection h with h2
      subst h2
      exact ⟨rfl, rfl, rfl, rfl, rfl, rfl, ⟨[], (List.append_nil _).symm, by simp, fun hc => absurd hc hact⟩, fun _ => rfl⟩

lemma stepMerge_ok {env : Nat → List Val → Val} {W : Nat → Cfg} {fuel : Nat}
    {s t : St} (h : stepMerge env W fuel s = .ok t) :
    t.merged = Val.merge s.enterView s.selection ∧
    t.result = (if s.shouldTransition ∧ (Val.merge s.enterView s.selection).hasTransAttrB
      then Val.transitionOf (Val.merge s.enterView s.selection) s.context
      else Val.merge s.enterView s.selection) ∧
    t.context = s.context ∧ t.shouldTransition = s.shouldTransition ∧
    t.joined = s.joined ∧ t.enterView = s.enterView ∧ t.selection = s.selection ∧
    t.cfg = s.cfg ∧ t.data = s.data ∧ t.more = s.more ∧
    ∃ cs, t.calls = s.calls ++ cs ∧ ∀ e ∈ cs, e.1 = PhaseName.post := by
  unfold stepMerge at h
  dsimp only at h
  split at h
  · exact Except.noConfusion h
  next m hm =>
    have hm' : m = Val.merge s.enterView s.selection := mergeM_ok hm
    subst hm'
    split at h
    · injection h with h2
      subst h2
      exact ⟨rfl, rfl, rfl, rfl, rfl, rfl, rfl, rfl, rfl, rfl, _, rfl, by simp⟩
    · injection h with h2
      subst h2
      exact ⟨rfl, rfl, rfl, rfl, rfl, rfl, rfl, rfl, rfl, rfl, [], (List.append_nil _).symm, by simp⟩

lemma stepInit_repost (cfg : Cfg) (q : Phase) (data more : List Nat)
    (callArgs : List Val) :
    stepInit { cfg with post := q } data more callArgs =
      (stepInit cfg data more callArgs).map (repost q) := by
  unfold stepInit
  cases h1 : (callArgs.headD Val.undef).hasSelectionAttr with
  | error e => rfl
  | ok b =>
    dsimp only
    cases h2 : (if b = true then (callArgs.headD Val.undef).selectionM else Except.ok (callArgs.headD Val.undef)) with
    | error e => rfl
    | ok sel => rfl

lemma stepSelect_repost (env : Nat → List Val → Val) (W : Nat → Cfg)
    (fuel : Nat) (q : Phase) (s : St) :
    stepSelect env W fuel (repost q s) =
      (stepSelect env W fuel s).map (repost q) := by
  unfold stepSelect repost
  dsimp only
  by_cases hc : s.cfg.select ≠ Phase.unset ∧ s.cfg.select ≠ Phase.identityFn
  · rw [if_pos hc, if_pos hc]
    cases h1 : (applyPhase env W fuel s.cfg.select (s.selection :: s.args)).hasSelectionAttr with
    | error e => rfl
    | ok b =>
      cases b with
      | true =>
        cases h2 : (applyPhase env W fuel s.cfg.select (s.selection :: s.args)).selectionM with
        | error e => rfl
        | ok r' => rfl
      | false => rfl
  · rw [if_neg hc, if_neg hc]
    rfl

lemma stepJoin_repost (q : Phase) (s : St) :
    stepJoin (repost q s) = (stepJoin s).map (repost q) := by
  unfold stepJoin repost
  dsimp only
  cases h1 : s.selection.dataM s.data s.more.head? with
  | error e => rfl
  | ok j => rfl

lemma stepPre_repost (env : Nat → List Val → Val) (W : Nat → Cfg)
    (fuel : Nat) (q : Phase) (s : St) :
    stepPre env W fuel (repost q s) = (stepPre env W fuel s).map (repost q) := by
  unfold stepPre repost
  dsimp only
  by_cases hc : s.cfg.pre ≠ Phase.unset ∧ s.cfg.pre ≠ Phase.emptyFn
  · rw [if_pos hc, if_pos hc]
    rfl
  · rw [if_neg hc, if_neg hc]
    rfl

lemma stepExit_repost (env : Nat → List Val → Val) (W : Nat → Cfg)
    (fuel : Nat) (q : Phase) (s : St) :
    stepExit env W fuel (repost q s) = (stepExit env W fuel s).map (repost q) := by
  unfold stepExit repost
  dsimp only
  by_cases hc : s.cfg.exit ≠ Phase.unset ∧ s.cfg.exit ≠ Phase.emptyFn
  · rw [if_pos hc, if_pos hc]
    cases h1 : s.selection.exitM with
    | error e => rfl
    | ok x => rfl
  · rw [if_neg hc, if_neg hc]
    rfl

lemma stepEnter_repost (env : Nat → List Val → Val) (W : Nat → Cfg)
    (fuel : Nat) (q : Phase) (s : St) :
    stepEnter env W fuel (repost q s) = (stepEnter env W fuel s).map (repost q) := by
  unfold stepEnter repost
  dsimp only
  cases h0 : s.selection.enterM with
  | error e => rfl
  | ok e0 =>
    dsimp only
    by_cases hc : s.cfg.enter ≠ Phase.unset ∧ s.cfg.enter ≠ Phase.identityFn
    · rw [if_pos hc, if_pos hc]
      cases h1 : (applyPhase env W fuel s.cfg.enter (e0 :: s.args)).hasSelectionAttr with
      | error e => rfl
      | ok b =>
        cases b with
        | true =>
          cases h2 : (applyPhase env W fuel s.cfg.enter (e0 :: s.args)).selectionM with
          | error e => rfl
          | ok r' => rfl
        | false => rfl
    · rw [if_neg hc, if_neg hc]
      rfl

lemma stepMerge_repost_result (env : Nat → List Val → Val) (W : Nat → Cfg)
    (fuel : Nat) (q : Phase) (s : St) :
    (stepMerge env W fuel (repost q s)).map (fun t => t.result) =
      (stepMerge env W fuel s).map (fun t => t.result) := by
  unfold stepMerge repost
  dsimp only
  cases h1 : s.enterView.mergeM s.selection with
  | error e => rfl
  | ok m =>
    dsimp only
    by_cases hcl : q ≠ Phase.unset ∧ q ≠ Phase.emptyFn
    · rw [if_pos hcl]
      by_cases hcr : s.cfg.post ≠ Phase.unset ∧ s.cfg.post ≠ Phase.emptyFn
      · rw [if_pos hcr]
        rfl
      · rw [if_neg hcr]
        rfl
    · rw [if_neg hcl]
      by_cases hcr : s.cfg.post ≠ Phase.unset ∧ s.cfg.post ≠ Phase.emptyFn
      · rw [if_pos hcr]
        rfl
      · rw [if_neg hcr]
        rfl

lemma run_repost_result (env : Nat → List Val → Val) (W : Nat → Cfg)
    (fuel : Nat) (cfg : Cfg) (q : Phase) (data more : List Nat)
    (callArgs : List Val) :
    (run env W fuel { cfg with post := q } data more callArgs).map (fun t => t.result) =
      (run env W fuel cfg data more callArgs).map (fun t => t.result) := by
  unfold run
  rw [stepInit_repost]
  cases h0 : stepInit cfg data more callArgs with
  | error e => rfl
  | ok s0 =>
    dsimp only [Except.map]
    rw [stepSelect_repost]
    cases h1 : stepSelect env W fuel s0 with
    | error e => rfl
    | ok s1 =>
      dsimp only [Except.map]
      rw [stepJoin_repost]
      cases h2 : stepJoin s1 with
      | error e => rfl
      | ok s2 =>
        dsimp only [Except.map]
        rw [stepPre_repost]
        cases h3 : stepPre env W fuel s2 with
        | error e => rfl
        | ok s3 =>
          dsimp only [Except.map]
          rw [stepExit_repost]
          cases h4 : stepExit env W fuel s3 with
          | error e => rfl
          | ok s4 =>
            dsimp only [Except.map]
            rw [stepEnter_repost]
            cases h5 : stepEnter env W fuel s4 with
            | error e => rfl
            | ok s5 =>
              dsimp only [Except.map]
              exact stepMerge_repost_result env W fuel q s5

lemma getter_setPh (c : Cfg) (name : PhaseName) (p : Phase) :
    Cfg.getter (Cfg.setPh c name p) name = phaseOr p (defaultOf name) := by
  cases name <;> rfl

lemma compose_getPh (srcs : List Nat) (name : PhaseName) :
    (compose srcs).getPh name = Phase.comp srcs.reverse name := by
  cases name <;> rfl

lemma compLoopF_trace_fst (step : Phase → List Val → Val) (W : Nat → Cfg)
    (name : PhaseName) :
    ∀ (l : List Nat) (args : List Val) (r0 : Val),
      (compLoopF step W l name args r0).2.map Prod.fst =
        l.filter (fun i => !(isSentinel (Cfg.getter (W i) name))) := by
  intro l
  induction l with
  | nil => intro args r0; rfl
  | cons i rest ih =>
    intro args r0
    by_cases hs : isSentinel (Cfg.getter (W i) name)
    · rw [compLoopF, if_pos hs, ih args r0, List.filter_cons]
      simp [hs]
    · rw [compLoopF, if_neg hs, List.filter_cons]
      simp only [Bool.not_eq_true] at hs
      simp only [hs, Bool.not_false, if_true, List.map_cons]
      exact congrArg (fun l => i :: l) (ih _ _)

lemma compLoopF_args_const (step : Phase → List Val → Val) (W : Nat → Cfg)
    {name : PhaseName} (hname : forwardName name = false) :
    ∀ (l : List Nat) (args : List Val) (r0 : Val) (e : Nat × List Val),
      e ∈ (compLoopF step W l name args r0).2 → e.2 = args := by
  intro l
  induction l with
  | nil => intro args r0 e he; simp [compLoopF] at he
  | cons i rest ih =>
    intro args r0 e he
    by_cases hs : isSentinel (Cfg.getter (W i) name)
    · rw [compLoopF, if_pos hs] at he
      exact ih args r0 e he
    · rw [compLoopF, if_neg hs] at he
      simp only [hname] at he
      rw [if_neg (fun hfalse => Bool.false_ne_true hfalse)] at he
      rcases List.mem_cons.mp he with he | he
      · rw [he]
      · exact ih args _ e he

lemma compLoopF_chain (step : Phase → List Val → Val) (W : Nat → Cfg)
    {name : PhaseName} (hname : forwardName name = true) :
    ∀ (l : List Nat) (args : List Val) (r0 : Val),
      (compLoopF step W l name args r0).1 =
        (chainSpec step W name l args).getD r0 := by
  intro l
  induction l with
  | nil => intro args r0; rfl
  | cons i rest ih =>
    intro args r0
    by_cases hs : isSentinel (Cfg.getter (W i) name)
    · rw [compLoopF, if_pos hs, chainSpec, if_pos hs]
      exact ih args r0
    · rw [compLoopF, if_neg hs, chainSpec, if_neg hs]
      simp only [hname, if_true, Option.getD_some]
      exact ih _ _

/-- JavaScript option priority: keep the first operand if present. -/
def orO (a b : Option Nat) : Option Nat :=
  match a with
  | some x => some x
  | none => b

lemma orO_none_right (a : Option Nat) : orO a none = a := by
  cases a <;> rfl

lemma orO_assoc (a b c : Option Nat) : orO (orO a b) c = orO a (orO b c) := by
  cases a <;> rfl

/-- The blocklist regex of compose.js line 15, anchored on both sides:
exact membership in the twelve listed names (the five phase names,
`update`, and six incidental object-protocol names). -/
def blockedKey (k : String) : Bool :=
  ["valueOf", "isPrototypeOf", "toString", "toLocaleString",
   "propertyIsEnumerable", "hasOwnProperty",
   "pre", "exit", "enter", "post", "update", "select"].contains k

/-- The value a list of enumerable (key, value) properties leaves at a
key when assigned in order: the rightmost occurrence wins. -/
def lastVal : List (String × Nat) → String → Option Nat
  | [], _ => none
  | e :: ps, k => orO (lastVal ps k) (if e.1 = k then some e.2 else none)

/-- The inner extend loop of `compose` (compose.js lines 57-63) for one
source: assign each enumerable property of the source onto the
accumulated property map unless its key matches the blocklist. -/
def extendOne (g : String → Option Nat) (ps : List (String × Nat)) :
    String → Option Nat :=
  ps.foldl (fun g e => if blockedKey e.1 then g else (fun k => if k = e.1 then some e.2 else g k)) g

/-- The property-extend half of `compose` (compose.js lines 56-64):
sources are read left to right, starting from the fresh factory (which
carries no extra enumerable properties of its own). -/
def extendProps (sources : List (List (String × Nat))) : String → Option Nat :=
  sources.foldl extendOne (fun _ => none)

lemma lastVal_append (ps qs : List (String × Nat)) (k : String) :
    lastVal (ps ++ qs) k = orO (lastVal qs k) (lastVal ps k) := by
  induction ps with
  | nil => exact (orO_none_right _).symm
  | cons e ps ih =>
    have h1 : lastVal ((e :: ps) ++ qs) k =
        orO (lastVal (ps ++ qs) k) (if e.1 = k then some e.2 else none) := rfl
    have h2 : lastVal (e :: ps) k =
        orO (lastVal ps k) (if e.1 = k then some e.2 else none) := rfl
    rw [h1, h2, ih, orO_assoc]

lemma extendOne_apply (ps : List (String × Nat)) :
    ∀ (g : String → Option Nat) (k : String),
      extendOne g ps k = if blockedKey k then g k else orO (lastVal ps k) (g k) := by
  induction ps with
  | nil =>
    intro g k
    by_cases hb : blockedKey k <;> simp [extendOne, lastVal, orO, hb]
  | cons e ps ih =>
    intro g k
    have hstep : extendOne g (e :: ps) =
        extendOne (if blockedKey e.1 then g else (fun k => if k = e.1 then some e.2 else g k)) ps := rfl
    rw [hstep, ih]
    by_cases hb : blockedKey k
    · rw [if_pos hb, if_pos hb]
      by_cases hbe : blockedKey e.1
      · rw [if_pos hbe]
      · rw [if_neg hbe]
        have hne : k ≠ e.1 := fun hk => hbe (hk ▸ hb)
        simp [if_neg hne]
    · rw [if_neg hb, if_neg hb]
      by_cases hbe : blockedKey e.1
      · rw [if_pos hbe]
        have hne : e.1 ≠ k := fun hk => hb (hk ▸ hbe)
        simp [lastVal, if_neg hne, orO_none_right]
      · rw [if_neg hbe]
        by_cases hke : k = e.1
        · subst hke
          have hv : lastVal (e :: ps) e.1 = orO (lastVal ps e.1) (some e.2) := by
            rw [lastVal, if_pos rfl]
          show orO (lastVal ps e.1) (if e.1 = e.1 then some e.2 else g e.1) = orO (lastVal (e :: ps) e.1) (g e.1)
          rw [if_pos rfl, hv, orO_assoc]
          cases lastVal ps e.1 <;> rfl
        · have hne : e.1 ≠ k := fun hk => hke hk.symm
          have hv : lastVal (e :: ps) k = lastVal ps k := by
            rw [lastVal, if_neg hne, orO_none_right]
          show orO (lastVal ps k) (if k = e.1 then some e.2 else g k) = orO (lastVal (e :: ps) k) (g k)
          rw [if_neg hke, hv]

lemma extend_foldl (sources : List (List (String × Nat))) :
    ∀ (g : String → Option Nat) (k : String),
      (sources.foldl extendOne g) k =
        if blockedKey k then g k
        else orO (lastVal (sources.flatMap id) k) (g k) := by
  induction sources with
  | nil =>
    intro g k
    by_cases hb : blockedKey k <;> simp [lastVal, orO, hb]
  | cons ps rest ih =>
    intro g k
    rw [List.foldl_cons, ih, extendOne_apply]
    by_cases hb : blockedKey k
    · rw [if_pos hb, if_pos hb, if_pos hb]
    · rw [if_neg hb, if_neg hb, if_neg hb]
      rw [List.flatMap_cons, lastVal_append, orO_assoc]
      rfl

lemma phaseOr_ne_unset (p d : Phase) (hd : d ≠ Phase.unset) :
    phaseOr p d ≠ Phase.unset := by
  unfold phaseOr
  split
  · exact hd
  · assumption

lemma isSentinel_defaultOf (name : PhaseName) :
    isSentinel (defaultOf name) = true := by
  cases name <;> rfl

/-- C6: `update()` with zero arguments returns exactly the 4-element
array `[pre, exit, enter, post]` in that order, each unset phase
replaced by its default (no-op for `pre`/`exit`/`post`, identity for
`enter`) and `select` excluded; with 1, 2, 3 or 4 arguments it
positionally assigns `pre`, then `pre`/`exit`, then
`pre`/`exit`/`enter`, then all four, leaving unmentioned phases
untouched; with more than 4 arguments it falls back to the 4-argument
assignment (extra arguments ignored) rather than raising an error; and
every setting call returns the spec itself. -/
theorem C6_update_arity (c : Cfg) (args : List Phase) :
    Gup.update c args = match args with
      | [] => Sum.inr [phaseOr c.pre .emptyFn, phaseOr c.exit .emptyFn, phaseOr c.enter .identityFn, phaseOr c.post .emptyFn]
      | [a] => Sum.inl { c with pre := a }
      | [a, b] => Sum.inl { c with pre := a, exit := b }
      | [a, b, d] => Sum.inl { c with pre := a, exit := b, enter := d }
      | a :: b :: d :: e :: _ => Sum.inl { c with pre := a, exit := b, enter := d, post := e } := by
  rcases args with _ | ⟨a, _ | ⟨b, _ | ⟨d, _ | ⟨e, rest⟩⟩⟩⟩ <;> rfl

/-- C7: for every spec `s`, phase `p` among the five, and function `f`,
`s.p(f)` returns `s` itself (the factory, with only that slot changed)
and a subsequent `s.p()` returns exactly `f` by identity, regardless of
the behaviour of `f`. -/
theorem C7_roundtrip (c : Cfg) (f : Phase) (hf : f ≠ Phase.unset) :
    (Gup.select c (some f) = Sum.inl { c with select := f } ∧
      Gup.select { c with select := f } none = Sum.inr f) ∧
    (Gup.pre c (some f) = Sum.inl { c with pre := f } ∧
      Gup.pre { c with pre := f } none = Sum.inr f) ∧
    (Gup.exit c (some f) = Sum.inl { c with exit := f } ∧
      Gup.exit { c with exit := f } none = Sum.inr f) ∧
    (Gup.enter c (some f) = Sum.inl { c with enter := f } ∧
      Gup.enter { c with enter := f } none = Sum.inr f) ∧
    (Gup.post c (some f) = Sum.inl { c with post := f } ∧
      Gup.post { c with post := f } none = Sum.inr f) := by
  refine ⟨⟨rfl, ?_⟩, ⟨rfl, ?_⟩, ⟨rfl, ?_⟩, ⟨rfl, ?_⟩, ⟨rfl, ?_⟩⟩ <;>
    simp [Gup.select, Gup.pre, Gup.exit, Gup.enter, Gup.post, phaseOr, hf]

/-- Witness for C7 at a concrete spec and user function. -/
theorem C7_roundtrip_witness :
    (Gup.select {} (some (.user 0)) = Sum.inl { ({} : Cfg) with select := .user 0 } ∧
      Gup.select { ({} : Cfg) with select := .user 0 } none = Sum.inr (.user 0)) ∧
    (Gup.pre {} (some (.user 0)) = Sum.inl { ({} : Cfg) with pre := .user 0 } ∧
      Gup.pre { ({} : Cfg) with pre := .user 0 } none = Sum.inr (.user 0)) ∧
    (Gup.exit {} (some (.user 0)) = Sum.inl { ({} : Cfg) with exit := .user 0 } ∧
      Gup.exit { ({} : Cfg) with exit := .user 0 } none = Sum.inr (.user 0)) ∧
    (Gup.enter {} (some (.user 0)) = Sum.inl { ({} : Cfg) with enter := .user 0 } ∧
      Gup.enter { ({} : Cfg) with enter := .user 0 } none = Sum.inr (.user 0)) ∧
    (Gup.post {} (some (.user 0)) = Sum.inl { ({} : Cfg) with post := .user 0 } ∧
      Gup.post { ({} : Cfg) with post := .user 0 } none = Sum.inr (.user 0)) :=
  C7_roundtrip {} (.user 0) (fun h => Phase.noConfusion h)

/-- C8: every phase accessor queried with no argument returns a
callable (never the raw `null`); after setting a phase to `null` (or
never setting it) the getter returns the canonical default sentinel —
the shared no-op for `pre`/`exit`/`post`, the shared identity for
`select`/`enter` — and the sentinels are distinguishable from user
functions (and from each other) by identity. -/
theorem C8_getter_callable (c : Cfg) (n : Nat) :
    (Gup.select c none ≠ Sum.inr Phase.unset ∧
     Gup.pre c none ≠ Sum.inr Phase.unset ∧
     Gup.exit c none ≠ Sum.inr Phase.unset ∧
     Gup.enter c none ≠ Sum.inr Phase.unset ∧
     Gup.post c none ≠ Sum.inr Phase.unset) ∧
    (Gup.select c (some .unset) = Sum.inl { c with select := Phase.unset } ∧
      Gup.select { c with select := Phase.unset } none = Sum.inr Phase.identityFn) ∧
    (Gup.pre c (some .unset) = Sum.inl { c with pre := Phase.unset } ∧
      Gup.pre { c with pre := Phase.unset } none = Sum.inr Phase.emptyFn) ∧
    (Gup.exit c (some .unset) = Sum.inl { c with exit := Phase.unset } ∧
      Gup.exit { c with exit := Phase.unset } none = Sum.inr Phase.emptyFn) ∧
    (Gup.enter c (some .unset) = Sum.inl { c with enter := Phase.unset } ∧
      Gup.enter { c with enter := Phase.unset } none = Sum.inr Phase.identityFn) ∧
    (Gup.post c (some .unset) = Sum.inl { c with post := Phase.unset } ∧
      Gup.post { c with post := Phase.unset } none = Sum.inr Phase.emptyFn) ∧
    (Gup.select {} none = Sum.inr Phase.identityFn ∧
     Gup.pre {} none = Sum.inr Phase.emptyFn ∧
     Gup.exit {} none = Sum.inr Phase.emptyFn ∧
     Gup.enter {} none = Sum.inr Phase.identityFn ∧
     Gup.post {} none = Sum.inr Phase.emptyFn) ∧
    (Phase.emptyFn ≠ Phase.user n ∧ Phase.identityFn ≠ Phase.user n ∧
     Phase.emptyFn ≠ Phase.identityFn) := by
  refine ⟨⟨?_, ?_, ?_, ?_, ?_⟩, ⟨rfl, rfl⟩, ⟨rfl, rfl⟩, ⟨rfl, rfl⟩, ⟨rfl, rfl⟩, ⟨rfl, rfl⟩,
    ⟨rfl, rfl, rfl, rfl, rfl⟩,
    fun h => Phase.noConfusion h, fun h => Phase.noConfusion h, fun h => Phase.noConfusion h⟩
  · exact fun h => phaseOr_ne_unset c.select Phase.identityFn (fun hd => Phase.noConfusion hd) (Sum.inr.inj h)
  · exact fun h => phaseOr_ne_unset c.pre Phase.emptyFn (fun hd => Phase.noConfusion hd) (Sum.inr.inj h)
  · exact fun h => phaseOr_ne_unset c.exit Phase.emptyFn (fun hd => Phase.noConfusion hd) (Sum.inr.inj h)
  · exact fun h => phaseOr_ne_unset c.enter Phase.identityFn (fun hd => Phase.noConfusion hd) (Sum.inr.inj h)
  · exact fun h => phaseOr_ne_unset c.post Phase.emptyFn (fun hd => Phase.noConfusion hd) (Sum.inr.inj h)

/-- C2: the dispatcher that `compose(spec_1, ..., spec_n)` installs for
a phase is the `comp` loop over the reversed source list, so the
sources' non-sentinel phase functions run in reversed order
(`spec_n`'s first, `spec_1`'s last); for `pre`, `exit` and `post` each
executed source receives the original argument list unchanged and the
dispatcher returns undefined (every return value discarded), while for
`select` and `enter` each executed source's return value becomes the
first argument of the next executed source and the last such return
value is the dispatcher's own return value. -/
theorem C2_composed_dispatch (env : Nat → List Val → Val) (W : Nat → Cfg)
    (fuel : Nat) (name : PhaseName) (srcs : List Nat) (args : List Val)
    (e : Nat × List Val) :
    (applyPhase env W (fuel + 1) ((compose srcs).getPh name) args =
      (compRun env W fuel srcs.reverse name args).1) ∧
    ((compRun env W fuel srcs.reverse name args).2.map Prod.fst =
      srcs.reverse.filter (fun i => !(isSentinel (Cfg.getter (W i) name)))) ∧
    (forwardName name = false →
      (e ∈ (compRun env W fuel srcs.reverse name args).2 → e.2 = args) ∧
      (compRun env W fuel srcs.reverse name args).1 = Val.undef) ∧
    (forwardName name = true →
      (compRun env W fuel srcs.reverse name args).1 =
        (chainSpec (fun p a => applyPhase env W fuel p a) W name srcs.reverse args).getD Val.undef) := by
  refine ⟨?_, ?_, ?_, ?_⟩
  · rw [compose_getPh]
    rfl
  · exact compLoopF_trace_fst _ W name _ args Val.undef
  · intro hname
    refine ⟨fun he => compLoopF_args_const _ W hname _ args Val.undef e he, ?_⟩
    unfold compRun
    rw [hname]
    simp
  · intro hname
    unfold compRun
    rw [hname]
    simp only [if_true]
    exact compLoopF_chain _ W hname _ args Val.undef

/-- C9: composition is late-binding — the composite built from a list
of source ids stores only the ids, and its dispatcher consults each
source's current phase through the getter at invocation time, so a
phase function installed on a source after `compose` was called is
executed by the composite, while a source phase reset to its default
after composition is skipped. -/
theorem C9_late_binding (env : Nat → List Val → Val) (fuel : Nat)
    (srcs : List Nat) (name : PhaseName) (args : List Val) (i f : Nat)
    (W : Nat → Cfg) (hi : i ∈ srcs) :
    ((compose srcs).getPh name = Phase.comp srcs.reverse name) ∧
    (i ∈ ((compRun env (fun j => if j = i then Cfg.setPh (W j) name (Phase.user f) else W j) fuel srcs.reverse name args).2.map Prod.fst)) ∧
    (i ∉ ((compRun env (fun j => if j = i then Cfg.setPh (W j) name Phase.unset else W j) fuel srcs.reverse name args).2.map Prod.fst)) := by
  refine ⟨compose_getPh srcs name, ?_, ?_⟩
  · have ht := compLoopF_trace_fst
      (fun p a => applyPhase env (fun j => if j = i then Cfg.setPh (W j) name (Phase.user f) else W j) fuel p a)
      (fun j => if j = i then Cfg.setPh (W j) name (Phase.user f) else W j)
      name srcs.reverse args Val.undef
    show i ∈ (compLoopF _ _ srcs.reverse name args Val.undef).2.map Prod.fst
    rw [ht, List.mem_filter]
    refine ⟨List.mem_reverse.mpr hi, ?_⟩
    have hW : (if i = i then Cfg.setPh (W i) name (Phase.user f) else W i)
        = Cfg.setPh (W i) name (Phase.user f) := if_pos rfl
    rw [hW, getter_setPh]
    rfl
  · intro hmem
    have ht := compLoopF_trace_fst
      (fun p a => applyPhase env (fun j => if j = i then Cfg.setPh (W j) name Phase.unset else W j) fuel p a)
      (fun j => if j = i then Cfg.setPh (W j) name Phase.unset else W j)
      name srcs.reverse args Val.undef
    rw [show (compRun env (fun j => if j = i then Cfg.setPh (W j) name Phase.unset else W j) fuel srcs.reverse name args).2 = (compLoopF (fun p a => applyPhase env (fun j => if j = i then Cfg.setPh (W j) name Phase.unset else W j) fuel p a) (fun j => if j = i then Cfg.setPh (W j) name Phase.unset else W j) srcs.reverse name args Val.undef).2 from rfl, ht, List.mem_filter] at hmem
    have hW : (if i = i then Cfg.setPh (W i) name Phase.unset else W i)
        = Cfg.setPh (W i) name Phase.unset := if_pos rfl
    rw [hW, getter_setPh] at hmem
    have : isSentinel (phaseOr Phase.unset (defaultOf name)) = true := by
      have hd : phaseOr Phase.unset (defaultOf name) = defaultOf name := by
        unfold phaseOr
        rw [if_pos rfl]
      rw [hd]
      exact isSentinel_defaultOf name
    rw [this] at hmem
    exact Bool.noConfusion hmem.2

/-- C1: the value returned by an invocation of a bound spec is the
entering view (as possibly transformed by the `enter` function) merged
with the persisting data-join view, with the entering view as the
receiver of the merge; if a transition context is active and the merged
view exposes a `transition` method, the returned value is the merged
view wrapped in that transition; and this wrapping is independent of
whether a `post` function is configured. -/
theorem C1_merge_and_wrap (env : Nat → List Val → Val) (W : Nat → Cfg)
    (fuel : Nat) (cfg : Cfg) (data more : List Nat) (callArgs : List Val)
    (out : St) (q : Phase)
    (h : run env W fuel cfg data more callArgs = .ok out) :
    out.merged = Val.merge out.enterView out.joined ∧
    out.result = (if out.shouldTransition ∧ out.merged.hasTransAttrB
      then Val.transitionOf out.merged out.context else out.merged) ∧
    ((cfg.enter = Phase.unset ∨ cfg.enter = Phase.identityFn) →
      out.enterView = Val.enterOf out.joined) ∧
    (run env W fuel { cfg with post := q } data more callArgs).map (fun t => t.result) = .ok out.result := by
  obtain ⟨s0, s1, s2, s3, s4, s5, h0, h1, h2, h3, h4, h5, h6⟩ := run_ok h
  obtain ⟨e0cfg, e0data, e0more, e0args, e0calls, e0join⟩ := stepInit_ok h0
  obtain ⟨e1cfg, e1data, e1more, e1args, e1join, cs1, e1calls, hcs1⟩ := stepSelect_ok h1
  have h2' := stepJoin_ok h2
  obtain ⟨cs3, h3', hcs3⟩ := stepPre_ok h3
  obtain ⟨cs4, h4', hcs4⟩ := stepExit_ok h4
  obtain ⟨e5cfg, e5data, e5more, e5args, e5sel, e5join, ⟨cs5, e5calls, hcs5, hcs5act⟩, h5def⟩ := stepEnter_ok h5
  obtain ⟨e6merged, e6result, e6ctx, e6st, e6join, e6ev, e6sel, e6cfg, e6data, e6more, cs6, e6calls, hcs6⟩ := stepMerge_ok h6
  have hsel2 : s2.selection = s2.joined := by rw [h2']
  have hsel3 : s3.selection = s3.joined := by rw [h3']; exact hsel2
  have hsel4 : s4.selection = s4.joined := by rw [h4']; exact hsel3
  have c2 : s2.cfg = s1.cfg := by rw [h2']
  have c3 : s3.cfg = s2.cfg := by rw [h3']
  have c4 : s4.cfg = s3.cfg := by rw [h4']
  have hc4 : s4.cfg = cfg := by rw [c4, c3, c2, e1cfg, e0cfg]
  have hsel5 : s5.selection = s5.joined := by rw [e5sel, e5join]; exact hsel4
  refine ⟨?_, ?_, ?_, ?_⟩
  · rw [e6merged, e6ev, e6join, hsel5]
  · rw [e6result, e6st, e6ctx, e6merged]
  · intro hdef
    rw [e6ev, h5def (by rw [hc4]; exact hdef), hsel4, e6join, e5join]
  · rw [run_repost_result, h]
    rfl

/-- C5: with a non-default `enter` function configured, `enter` is
called with the raw entering view as its first argument, never with a
transition-wrapped view, even when a transition context is active; the
only transition-wrapped views ever passed to phase functions go to
`pre`, `exit` and `post` (the merged view). -/
theorem C5_enter_never_wrapped (env : Nat → List Val → Val) (W : Nat → Cfg)
    (fuel : Nat) (cfg : Cfg) (data more : List Nat) (callArgs : List Val)
    (out : St) (v : Val) (n : PhaseName) (m c : Val)
    (hwf : Val.underlyingOK (callArgs.headD Val.undef))
    (h : run env W fuel cfg data more callArgs = .ok out) :
    ((cfg.enter ≠ Phase.unset ∧ cfg.enter ≠ Phase.identityFn) →
      (PhaseName.enter, Val.enterOf out.joined) ∈ out.calls) ∧
    ((PhaseName.enter, v) ∈ out.calls →
      v = Val.enterOf out.joined ∧ v.isTransitionLike = false) ∧
    ((n, Val.transitionOf m c) ∈ out.calls →
      n = PhaseName.pre ∨ n = PhaseName.exit ∨ n = PhaseName.post) := by
  obtain ⟨s0, s1, s2, s3, s4, s5, h0, h1, h2, h3, h4, h5, h6⟩ := run_ok h
  obtain ⟨e0cfg, e0data, e0more, e0args, e0calls, e0join⟩ := stepInit_ok h0
  obtain ⟨e1cfg, e1data, e1more, e1args, e1join, cs1, e1calls, hcs1⟩ := stepSelect_ok h1
  have h2' := stepJoin_ok h2
  obtain ⟨cs3, h3', hcs3⟩ := stepPre_ok h3
  obtain ⟨cs4, h4', hcs4⟩ := stepExit_ok h4
  obtain ⟨e5cfg, e5data, e5more, e5args, e5sel, e5join, ⟨cs5, e5calls, hcs5, hcs5act⟩, h5def⟩ := stepEnter_ok h5
  obtain ⟨e6merged, e6result, e6ctx, e6st, e6join, e6ev, e6sel, e6cfg, e6data, e6more, cs6, e6calls, hcs6⟩ := stepMerge_ok h6
  have hsel2 : s2.selection = s2.joined := by rw [h2']
  have hsel3 : s3.selection = s3.joined := by rw [h3']; exact hsel2
  have hsel4 : s4.selection = s4.joined := by rw [h4']; exact hsel3
  have c2 : s2.cfg = s1.cfg := by rw [h2']
  have c3 : s3.cfg = s2.cfg := by rw [h3']
  have c4 : s4.cfg = s3.cfg := by rw [h4']
  have hc4 : s4.cfg = cfg := by rw [c4, c3, c2, e1cfg, e0cfg]
  have e4calls : s4.calls = s3.calls ++ cs4 := by rw [h4']
  have e3calls : s3.calls = s2.calls ++ cs3 := by rw [h3']
  have e2calls : s2.calls = s1.calls := by rw [h2']
  have hcalls : out.calls = (((([] ++ cs1) ++ cs3) ++ cs4) ++ cs5) ++ cs6 := by
    rw [e6calls, e5calls, e4calls, e3calls, e2calls, e1calls, e0calls]
  have hv : Val.enterOf s4.selection = Val.enterOf out.joined := by
    rw [hsel4, e6join, e5join]
  refine ⟨?_, ?_, ?_⟩
  · intro hact
    have hcseq := hcs5act (by rw [hc4]; exact hact)
    rw [hcalls, hcseq, ← hv]
    simp [List.mem_append]
  · intro hx
    rw [hcalls] at hx
    simp only [List.nil_append, List.mem_append] at hx
    rcases hx with ((((hx | hx) | hx) | hx) | hx)
    · exact absurd (hcs1 _ hx).1 (fun hh => PhaseName.noConfusion hh)
    · exact absurd (hcs3 _ hx) (fun hh => PhaseName.noConfusion hh)
    · exact absurd (hcs4 _ hx) (fun hh => PhaseName.noConfusion hh)
    · have h1v : v = Val.enterOf s4.selection := (hcs5 _ hx).2
      have h2v : v = Val.enterOf out.joined := h1v.trans hv
      exact ⟨h2v, by rw [h2v]; rfl⟩
    · exact absurd (hcs6 _ hx) (fun hh => PhaseName.noConfusion hh)
  · intro hx
    rw [hcalls] at hx
    simp only [List.nil_append, List.mem_append] at hx
    rcases hx with ((((hx | hx) | hx) | hx) | hx)
    · have hval : Val.transitionOf m c = s0.selection := (hcs1 _ hx).2
      have hsel0 := stepInit_sel hwf h0
      rw [← hval] at hsel0
      simp [Val.isTransitionLike] at hsel0
    · exact Or.inl (hcs3 _ hx)
    · exact Or.inr (Or.inl (hcs4 _ hx))
    · exact absurd ((hcs5 _ hx).2 : Val.transitionOf m c = Val.enterOf s4.selection) (fun hh => Val.noConfusion hh)
    · exact Or.inr (Or.inr (hcs6 _ hx))

/-- C10: invoking a bound spec never mutates the spec's configuration —
the five stored phase slots and the pending data-bind arguments carried
through the invocation state are identical before and after the
invocation. -/
theorem C10_invocation_frame (env : Nat → List Val → Val) (W : Nat → Cfg)
    (fuel : Nat) (cfg : Cfg) (data more : List Nat) (callArgs : List Val)
    (out : St) (h : run env W fuel cfg data more callArgs = .ok out) :
    out.cfg = cfg ∧ out.data = data ∧ out.more = more := by
  obtain ⟨s0, s1, s2, s3, s4, s5, h0, h1, h2, h3, h4, h5, h6⟩ := run_ok h
  obtain ⟨e0cfg, e0data, e0more, e0args, e0calls, e0join⟩ := stepInit_ok h0
  obtain ⟨e1cfg, e1data, e1more, e1args, e1join, cs1, e1calls, hcs1⟩ := stepSelect_ok h1
  have h2' := stepJoin_ok h2
  obtain ⟨cs3, h3', hcs3⟩ := stepPre_ok h3
  obtain ⟨cs4, h4', hcs4⟩ := stepExit_ok h4
  obtain ⟨e5cfg, e5data, e5more, e5args, e5sel, e5join, ⟨cs5, e5calls, hcs5, hcs5act⟩, h5def⟩ := stepEnter_ok h5
  obtain ⟨e6merged, e6result, e6ctx, e6st, e6join, e6ev, e6sel, e6cfg, e6data, e6more, cs6, e6calls, hcs6⟩ := stepMerge_ok h6
  refine ⟨?_, ?_, ?_⟩
  · rw [e6cfg, e5cfg]
    rw [h4', h3', h2', e1cfg, e0cfg]
  · rw [e6data, e5data]
    rw [h4', h3', h2', e1data, e0data]
  · rw [e6more, e5more]
    rw [h4', h3', h2', e1more, e0more]

/-- C4: with a single all-default source, every composed phase
dispatcher does skip every source (each executed-source trace is
empty), but invoking the composite bound to `[1]` against a plain
selection does not complete: the composed `select` dispatcher's
`result` variable is never assigned, so the dispatcher returns
undefined, `_gup` replaces the selection with it (the dispatcher is
truthy and not `identity`, so the select phase runs), and reading
`.selection` of undefined throws a TypeError.  This theorem evaluates
the model at that failing input. -/
theorem C4_composite_default_crash :
    ((compRun (fun _ args => args.headD Val.undef) (fun _ => ({} : Cfg)) 4 [0].reverse .select [Val.atomSel 0 true]).2 = [] ∧
     (compRun (fun _ args => args.headD Val.undef) (fun _ => ({} : Cfg)) 4 [0].reverse .pre [Val.atomSel 0 true]).2 = [] ∧
     (compRun (fun _ args => args.headD Val.undef) (fun _ => ({} : Cfg)) 4 [0].reverse .exit [Val.atomSel 0 true]).2 = [] ∧
     (compRun (fun _ args => args.headD Val.undef) (fun _ => ({} : Cfg)) 4 [0].reverse .enter [Val.atomSel 0 true]).2 = [] ∧
     (compRun (fun _ args => args.headD Val.undef) (fun _ => ({} : Cfg)) 4 [0].reverse .post [Val.atomSel 0 true]).2 = []) ∧
    run (fun _ args => args.headD Val.undef) (fun _ => ({} : Cfg)) 5 (compose [0]) [1] [] [Val.atomSel 0 true] =
      .error "TypeError: undefined has no properties" :=
  ⟨⟨rfl, rfl, rfl, rfl, rfl⟩, rfl⟩

/-- C3 counterexample: a custom `data` property on a source IS copied
onto the composite — the blocklist regex of compose.js line 15 does not
contain `data`, so the claim that a custom `data` property is never
copied is false at this input. -/
theorem C3_counterexample : extendProps [[("data", 7)]] "data" = some 7 := by
  decide

/-- C3 (amended): compose copies onto the result every enumerable
property of each source except those whose key is one of the twelve
blocklisted names — the five phase names, `update`, and the six
object-protocol names (`valueOf`, `isPrototypeOf`, `toString`,
`toLocaleString`, `propertyIsEnumerable`, `hasOwnProperty`) — reading
sources left to right so that on a key collision the rightmost
assignment wins; `data` is NOT on the blocklist, so a custom `data`
property is copied like any other. -/
theorem C3_extend_blocklist (sources : List (List (String × Nat))) (k : String) :
    (extendProps sources k =
      if blockedKey k then none else lastVal (sources.flatMap id) k) ∧
    blockedKey "data" = false ∧
    blockedKey "select" = true ∧ blockedKey "pre" = true ∧
    blockedKey "exit" = true ∧ blockedKey "enter" = true ∧
    blockedKey "post" = true ∧ blockedKey "update" = true ∧
    blockedKey "valueOf" = true ∧ blockedKey "isPrototypeOf" = true ∧
    blockedKey "toString" = true ∧ blockedKey "toLocaleString" = true ∧
    blockedKey "propertyIsEnumerable" = true ∧ blockedKey "hasOwnProperty" = true := by
  refine ⟨?_, by decide, by decide, by decide, by decide, by decide, by decide,
    by decide, by decide, by decide, by decide, by decide, by decide, by decide⟩
  have h1 : extendProps sources k =
      if blockedKey k then none else orO (lastVal (sources.flatMap id) k) none :=
    extend_foldl sources (fun _ => none) k
  rw [h1, orO_none_right]

/-- Witness for C1: a concrete invocation with all phases unset on a
plain selection; the result is the entering view merged (as receiver)
with the joined view, unwrapped, and unchanged when `post` is set. -/
theorem C1_merge_and_wrap_witness :
    Val.merge (Val.enterOf (Val.dataJoin (Val.atomSel 0 true) [1] none)) (Val.dataJoin (Val.atomSel 0 true) [1] none) =
      Val.merge (Val.enterOf (Val.dataJoin (Val.atomSel 0 true) [1] none)) (Val.dataJoin (Val.atomSel 0 true) [1] none) ∧
    Val.merge (Val.enterOf (Val.dataJoin (Val.atomSel 0 true) [1] none)) (Val.dataJoin (Val.atomSel 0 true) [1] none) =
      Val.merge (Val.enterOf (Val.dataJoin (Val.atomSel 0 true) [1] none)) (Val.dataJoin (Val.atomSel 0 true) [1] none) ∧
    ((Phase.unset = Phase.unset ∨ Phase.unset = Phase.identityFn) →
      Val.enterOf (Val.dataJoin (Val.atomSel 0 true) [1] none) =
        Val.enterOf (Val.dataJoin (Val.atomSel 0 true) [1] none)) ∧
    (run (fun _ args => args.headD Val.undef) (fun _ => ({} : Cfg)) 0
        { ({} : Cfg) with post := Phase.user 7 } [1] [] [Val.atomSel 0 true]).map (fun t => t.result) =
      Except.ok (Val.merge (Val.enterOf (Val.dataJoin (Val.atomSel 0 true) [1] none)) (Val.dataJoin (Val.atomSel 0 true) [1] none)) :=
  C1_merge_and_wrap (fun _ args => args.headD Val.undef) (fun _ => ({} : Cfg)) 0
    {} [1] [] [Val.atomSel 0 true]
    { context := Val.atomSel 0 true, shouldTransition := false,
      selection := Val.dataJoin (Val.atomSel 0 true) [1] none, args := [], calls := [],
      joined := Val.dataJoin (Val.atomSel 0 true) [1] none,
      enterArg := Val.enterOf (Val.dataJoin (Val.atomSel 0 true) [1] none),
      enterView := Val.enterOf (Val.dataJoin (Val.atomSel 0 true) [1] none),
      merged := Val.merge (Val.enterOf (Val.dataJoin (Val.atomSel 0 true) [1] none)) (Val.dataJoin (Val.atomSel 0 true) [1] none),
      result := Val.merge (Val.enterOf (Val.dataJoin (Val.atomSel 0 true) [1] none)) (Val.dataJoin (Val.atomSel 0 true) [1] none),
      cfg := {}, data := [1], more := [] }
    (Phase.user 7) rfl

/-- Witness for C5: a concrete invocation with `enter` set to a user
function; the call log holds exactly the raw entering view. -/
theorem C5_enter_never_wrapped_witness :
    ((Phase.user 0 ≠ Phase.unset ∧ Phase.user 0 ≠ Phase.identityFn) →
      (PhaseName.enter, Val.enterOf (Val.dataJoin (Val.atomSel 0 true) [1] none)) ∈
        [(PhaseName.enter, Val.enterOf (Val.dataJoin (Val.atomSel 0 true) [1] none))]) ∧
    ((PhaseName.enter, Val.enterOf (Val.dataJoin (Val.atomSel 0 true) [1] none)) ∈
        [(PhaseName.enter, Val.enterOf (Val.dataJoin (Val.atomSel 0 true) [1] none))] →
      Val.enterOf (Val.dataJoin (Val.atomSel 0 true) [1] none) =
        Val.enterOf (Val.dataJoin (Val.atomSel 0 true) [1] none) ∧
      (Val.enterOf (Val.dataJoin (Val.atomSel 0 true) [1] none)).isTransitionLike = false) ∧
    ((PhaseName.pre, Val.transitionOf Val.undef Val.undef) ∈
        [(PhaseName.enter, Val.enterOf (Val.dataJoin (Val.atomSel 0 true) [1] none))] →
      PhaseName.pre = PhaseName.pre ∨ PhaseName.pre = PhaseName.exit ∨ PhaseName.pre = PhaseName.post) :=
  C5_enter_never_wrapped (fun _ args => args.headD Val.undef) (fun _ => ({} : Cfg)) 0
    { enter := Phase.user 0 } [1] [] [Val.atomSel 0 true]
    { context := Val.atomSel 0 true, shouldTransition := false,
      selection := Val.dataJoin (Val.atomSel 0 true) [1] none, args := [],
      calls := [(PhaseName.enter, Val.enterOf (Val.dataJoin (Val.atomSel 0 true) [1] none))],
      joined := Val.dataJoin (Val.atomSel 0 true) [1] none,
      enterArg := Val.enterOf (Val.dataJoin (Val.atomSel 0 true) [1] none),
      enterView := Val.enterOf (Val.dataJoin (Val.atomSel 0 true) [1] none),
      merged := Val.merge (Val.enterOf (Val.dataJoin (Val.atomSel 0 true) [1] none)) (Val.dataJoin (Val.atomSel 0 true) [1] none),
      result := Val.merge (Val.enterOf (Val.dataJoin (Val.atomSel 0 true) [1] none)) (Val.dataJoin (Val.atomSel 0 true) [1] none),
      cfg := { enter := Phase.user 0 }, data := [1], more := [] }
    (Val.enterOf (Val.dataJoin (Val.atomSel 0 true) [1] none))
    PhaseName.pre Val.undef Val.undef True.intro rfl

/-- Witness for C9 at one source, phase `pre`, a user function
installed (or the slot reset) after composition. -/
theorem C9_late_binding_witness :
    ((compose [0]).getPh PhaseName.pre = Phase.comp [0].reverse PhaseName.pre) ∧
    (0 ∈ ((compRun (fun _ args => args.headD Val.undef)
        (fun j => if j = 0 then Cfg.setPh (({} : Cfg)) PhaseName.pre (Phase.user 7) else ({} : Cfg))
        0 [0].reverse PhaseName.pre [Val.atomSel 1 false]).2.map Prod.fst)) ∧
    (0 ∉ ((compRun (fun _ args => args.headD Val.undef)
        (fun j => if j = 0 then Cfg.setPh (({} : Cfg)) PhaseName.pre Phase.unset else ({} : Cfg))
        0 [0].reverse PhaseName.pre [Val.atomSel 1 false]).2.map Prod.fst)) :=
  C9_late_binding (fun _ args => args.headD Val.undef) 0 [0] PhaseName.pre
    [Val.atomSel 1 false] 0 7 (fun _ => ({} : Cfg)) (List.mem_singleton.mpr rfl)

/-- Witness for C10: a concrete invocation with `pre` and `enter`
configured; its final state carries the configuration and pending bind
unchanged. -/
theorem C10_invocation_frame_witness :
    ({ pre := Phase.user 3, enter := Phase.user 0 } : Cfg) = { pre := Phase.user 3, enter := Phase.user 0 } ∧
    ([2] : List Nat) = [2] ∧ ([] : List Nat) = [] :=
  C10_invocation_frame (fun _ args => args.headD Val.undef) (fun _ => ({} : Cfg)) 0
    { pre := Phase.user 3, enter := Phase.user 0 } [2] [] [Val.atomSel 0 true]
    { context := Val.atomSel 0 true, shouldTransition := false,
      selection := Val.dataJoin (Val.atomSel 0 true) [2] none, args := [],
      calls := [(PhaseName.pre, Val.dataJoin (Val.atomSel 0 true) [2] none),
                (PhaseName.enter, Val.enterOf (Val.dataJoin (Val.atomSel 0 true) [2] none))],
      joined := Val.dataJoin (Val.atomSel 0 true) [2] none,
      enterArg := Val.enterOf (Val.dataJoin (Val.atomSel 0 true) [2] none),
      enterView := Val.enterOf (Val.dataJoin (Val.atomSel 0 true) [2] none),
      merged := Val.merge (Val.enterOf (Val.dataJoin (Val.atomSel 0 true) [2] none)) (Val.dataJoin (Val.atomSel 0 true) [2] none),
      result := Val.merge (Val.enterOf (Val.dataJoin (Val.atomSel 0 true) [2] none)) (Val.dataJoin (Val.atomSel 0 true) [2] none),
      cfg := { pre := Phase.user 3, enter := Phase.user 0 }, data := [2], more := [] }
    rfl

end DGup
